import Mathlib

/-!
Verification of the gpu-grab single-host GPU job scheduler daemon.

Shallow embedding of the task store, GPU matching, scheduler tick,
cancel handler and request router, translated from the Python sources
(`gpu_grab/models.py`, `queue_manager.py`, `gpu_monitor.py`,
`scheduler.py`, `task_runner.py`, `server.py`, `__main__.py`).

Modelling conventions:
* timestamps (`datetime`) are abstract instants modelled as `Int`
  (ordered, subtractable); `isoformat`/`fromisoformat` form a bijection
  on such instants, so a serialized timestamp is modelled by its value;
* Python floats in requirements are modelled as `ℚ`;
* the process table, log files and NVML probe are external effects and
  enter the model as oracle functions in `TickEnv`;
* Python truthiness of an optional list (`None` and `[]` are falsy) is
  modelled by `optListTruthy`.
-/

namespace GpuGrab

/-- Task status enumeration (`models.py`, `TaskStatus`). -/
inductive TaskStatus where
  | pending
  | running
  | completed
  | failed
  | cancelled
deriving DecidableEq, Repr

/-- The string `status.value` stored on serialization (`models.py` line 82). -/
def TaskStatus.value : TaskStatus → String
  | .pending => "pending"
  | .running => "running"
  | .completed => "completed"
  | .failed => "failed"
  | .cancelled => "cancelled"

/-- Python `TaskStatus(s)` lookup by value; raises (here: `none`) on an
unknown string (`models.py` line 104). -/
def TaskStatus.ofValue : String → Option TaskStatus
  | "pending" => some .pending
  | "running" => some .running
  | "completed" => some .completed
  | "failed" => some .failed
  | "cancelled" => some .cancelled
  | _ => none

/-- Membership of a status in `{COMPLETED, FAILED, CANCELLED}`
(`queue_manager.py` line 140). -/
def TaskStatus.isTerminal : TaskStatus → Bool
  | .completed => true
  | .failed => true
  | .cancelled => true
  | _ => false

/-- GPU resource requirements (`models.py`, `GPURequirement`).
`gpu_ids = none` models Python `None`; `gpu_count` is a Python `int`,
hence `Int` (it may be negative — nothing in the code forbids it). -/
structure GPURequirement where
  gpu_ids : Option (List Int) := none
  min_free_memory_gb : ℚ := 0
  max_util_percent : ℚ := 100
  gpu_count : Int := 1
deriving DecidableEq, Repr

/-- Persisted dictionary form of a requirement (`GPURequirement.to_dict`). -/
structure ReqDict where
  gpu_ids : Option (List Int)
  min_free_memory_gb : ℚ
  max_util_percent : ℚ
  gpu_count : Int
deriving DecidableEq, Repr

/-- `GPURequirement.to_dict` (`models.py` lines 29-36). -/
def GPURequirement.to_dict (r : GPURequirement) : ReqDict :=
  { gpu_ids := r.gpu_ids
    min_free_memory_gb := r.min_free_memory_gb
    max_util_percent := r.max_util_percent
    gpu_count := r.gpu_count }

/-- `GPURequirement.from_dict` (`models.py` lines 38-46).  The dict
produced by `to_dict` always carries every key, so the `data.get(k, d)`
defaults never fire on a round trip; the dict is modelled as the typed
record `ReqDict`. -/
def GPURequirement.from_dict (d : ReqDict) : GPURequirement :=
  { gpu_ids := d.gpu_ids
    min_free_memory_gb := d.min_free_memory_gb
    max_util_percent := d.max_util_percent
    gpu_count := d.gpu_count }

/-- The central task record (`models.py`, `Task`). -/
structure Task where
  id : String := ""
  name : String := ""
  command : String := ""
  working_dir : String := ""
  env : List (String × String) := []
  requirements : GPURequirement := {}
  status : TaskStatus := .pending
  priority : Int := 0
  created_at : Int := 0
  started_at : Option Int := none
  finished_at : Option Int := none
  assigned_gpus : List Int := []
  pid : Option Int := none
  exit_code : Option Int := none
  error_message : String := ""
  log_file : String := ""
deriving DecidableEq, Repr

/-- Persisted dictionary form of a task (`Task.to_dict`).  Timestamps are
kept as their abstract instants (`isoformat` is injective and inverted by
`fromisoformat`); `status` is kept as its `.value` string. -/
structure TaskDict where
  id : String
  name : String
  command : String
  working_dir : String
  env : List (String × String)
  requirements : ReqDict
  status : String
  priority : Int
  created_at : Option Int
  started_at : Option Int
  finished_at : Option Int
  assigned_gpus : List Int
  pid : Option Int
  exit_code : Option Int
  error_message : String
  log_file : String
deriving DecidableEq, Repr

/-- `Task.to_dict` (`models.py` lines 73-92).  A `datetime` object is
always truthy, so `self.created_at.isoformat() if self.created_at else
None` stores `some`; the optional timestamps store their own option. -/
def Task.to_dict (t : Task) : TaskDict :=
  { id := t.id
    name := t.name
    command := t.command
    working_dir := t.working_dir
    env := t.env
    requirements := t.requirements.to_dict
    status := t.status.value
    priority := t.priority
    created_at := some t.created_at
    started_at := t.started_at
    finished_at := t.finished_at
    assigned_gpus := t.assigned_gpus
    pid := t.pid
    exit_code := t.exit_code
    error_message := t.error_message
    log_file := t.log_file }

/-- `Task.from_dict` (`models.py` lines 94-120).  `TaskStatus(...)` can
raise on an unknown status string, so the result is an `Option`; `now`
is the `datetime.now()` fallback used when `created_at` is absent.  An
`isoformat` string is never empty, so the truthiness tests on the three
timestamp entries coincide with `Option.isSome`. -/
def Task.from_dict (d : TaskDict) (now : Int) : Option Task :=
  (TaskStatus.ofValue d.status).map fun s =>
    { id := d.id
      name := d.name
      command := d.command
      working_dir := d.working_dir
      env := d.env
      requirements := GPURequirement.from_dict d.requirements
      status := s
      priority := d.priority
      created_at := d.created_at.getD now
      started_at := d.started_at
      finished_at := d.finished_at
      assigned_gpus := d.assigned_gpus
      pid := d.pid
      exit_code := d.exit_code
      error_message := d.error_message
      log_file := d.log_file }

/-- Transient per-device snapshot (`models.py`, `GPUStatus`). -/
structure GPUStatus where
  index : Int
  name : String := ""
  total_memory_mb : Int := 0
  used_memory_mb : Int := 0
  free_memory_mb : Int := 0
  utilization_percent : Int := 0
  temperature : Int := 0
deriving DecidableEq, Repr

/-- `GPUStatus.free_memory_gb` property (`models.py` lines 135-138). -/
def GPUStatus.free_memory_gb (g : GPUStatus) : ℚ :=
  (g.free_memory_mb : ℚ) / 1024

/-! ### Task store (`queue_manager.py`)

The store state is the decoded contents of `tasks.json`: a list of task
records.  Locking and file IO are serialization machinery around the
pure read-modify-write bodies modelled here. -/

/-- A store state: the task list held in `tasks.json`. -/
abbrev Store := List Task

/-- `QueueManager.add_task` (`queue_manager.py` lines 52-58): append the
record, unconditionally. -/
def addTask (t : Task) (ts : Store) : Store :=
  ts ++ [t]

/-- `QueueManager.get_task` (`queue_manager.py` lines 60-66): first
record with the given id, if any. -/
def getTask (id : String) (ts : Store) : Option Task :=
  ts.find? fun t => t.id == id

/-- `QueueManager.update_task` (`queue_manager.py` lines 68-76): replace
the first record whose id matches, then persist; no-op when absent. -/
def updateTask (u : Task) : Store → Store
  | [] => []
  | t :: rest => if t.id == u.id then u :: rest else t :: updateTask u rest

/-- `QueueManager.remove_task` (`queue_manager.py` lines 78-87): drop
every record with the id; report whether anything was dropped. -/
def removeTask (id : String) (ts : Store) : Store × Bool :=
  let kept := ts.filter fun t => !(t.id == id)
  (kept, decide (kept.length < ts.length))

/-- Sort key comparison used by `get_pending_tasks`: Python's stable sort
on the key `(-x.priority, x.created_at)` compared lexicographically. -/
def pendKeyLE (a b : Task) : Bool :=
  decide (-a.priority < -b.priority ∨
    (-a.priority = -b.priority ∧ a.created_at ≤ b.created_at))

/-- `QueueManager.get_pending_tasks` (`queue_manager.py` lines 93-97):
pending records, stably sorted by `(-priority, created_at)`. -/
def getPendingTasks (ts : Store) : List Task :=
  (ts.filter fun t => t.status == TaskStatus.pending).mergeSort pendKeyLE

/-- `QueueManager.get_running_tasks` (`queue_manager.py` lines 99-102). -/
def getRunningTasks (ts : Store) : List Task :=
  ts.filter fun t => t.status == TaskStatus.running

/-- `QueueManager.cancel_task` (`queue_manager.py` lines 109-120): iff
the record exists and is pending, mark it cancelled with `finished_at =
now` and persist; report success. -/
def cancelTask (id : String) (now : Int) (ts : Store) : Store × Bool :=
  match getTask id ts with
  | some t =>
      if t.status == TaskStatus.pending then
        (updateTask { t with status := .cancelled, finished_at := some now } ts, true)
      else (ts, false)
  | none => (ts, false)

/-- `QueueManager.cleanup_old_tasks` (`queue_manager.py` lines 134-155):
keep a record iff its status is non-terminal or its `finished_at` is set
and strictly after `now - max_age_days`; return the kept list and the
number removed.  Time is measured in days. -/
def cleanupOldTasks (maxAgeDays : Int) (now : Int) (ts : Store) : Store × Nat :=
  let cutoff := now - maxAgeDays
  let kept := ts.filter fun t =>
    !t.status.isTerminal ||
      (match t.finished_at with
       | some f => decide (f > cutoff)
       | none => false)
  (kept, ts.length - kept.length)

/-! ### GPU matching (`gpu_monitor.py`) -/

/-- Python truthiness of an `Optional[list]`: `None` and `[]` are falsy. -/
def optListTruthy : Option (List Int) → Bool
  | none => false
  | some l => !l.isEmpty

/-- Python slice `l[:k]` for an arbitrary integer `k`: the first `k`
elements when `k ≥ 0`, all but the last `-k` elements when `k < 0`. -/
def pySlice {α : Type} (l : List α) (k : Int) : List α :=
  if 0 ≤ k then l.take k.toNat else l.take ((l.length : Int) + k).toNat

/-- The three `continue` guards of the candidate loop in
`GPUMonitor.check_requirements` (`gpu_monitor.py` lines 108-129): a
device survives iff it is not skipped by the `gpu_ids` restriction (only
applied when `gpu_ids` is truthy, i.e. present and non-empty), meets the
free-memory bound and meets the utilization bound. -/
def gpuEligible (req : GPURequirement) (gpu : GPUStatus) : Bool :=
  if optListTruthy req.gpu_ids && !((req.gpu_ids.getD []).contains gpu.index) then
    false
  else if decide (gpu.free_memory_gb < req.min_free_memory_gb) then
    false
  else if decide ((gpu.utilization_percent : ℚ) > req.max_util_percent) then
    false
  else true

/-- `GPUMonitor.check_requirements` on a successful snapshot
(`gpu_monitor.py` lines 92-140): collect surviving device indices in
snapshot order; if `len(candidates) >= gpu_count` return the slice
`candidates[:gpu_count]`, else `None`.  The `NVMLError → None` path is
handled at the call site (`availableGpus`). -/
def checkRequirements (req : GPURequirement) (all_gpus : List GPUStatus) :
    Option (List Int) :=
  let candidates := (all_gpus.filter (gpuEligible req)).map GPUStatus.index
  if req.gpu_count ≤ (candidates.length : Int) then
    some (pySlice candidates req.gpu_count)
  else
    none

/-! ### Runner and scheduler (`task_runner.py`, `scheduler.py`)

The runner's process table, the OS spawn/poll/kill calls and the NVML
probe are external effects.  A tick's interaction with them is captured
by oracle functions: `check` is `TaskRunner.check_task` (exit code or
`none` while alive), `probe` is the per-call NVML snapshot (`none` on
`NVMLError`), `spawnOk`/`spawnPid`/`spawnErr` describe the outcome of
`subprocess.Popen`, and `logPath` is `<logs_dir>/task_<id>.log`. -/

/-- Oracle environment for one scheduler tick. -/
structure TickEnv where
  check : Task → Option Int
  probe : Task → Option (List GPUStatus)
  spawnOk : Task → Bool
  spawnPid : Task → Int
  spawnErr : Task → String
  logPath : Task → String
  now : Int
  maxConcurrent : Nat

/-- `TaskRunner.start_task` (`task_runner.py` lines 24-73): on spawn
success the record gets `pid`, `assigned_gpus`, `status = RUNNING` and
`started_at = now`; on failure it gets `status = FAILED`, the exception
text as `error_message` and `finished_at = now`.  `task.log_file` is
assigned before the spawn attempt in both paths. -/
def startTask (env : TickEnv) (t : Task) (gpus : List Int) : Task × Bool :=
  if env.spawnOk t then
    ({ t with
        log_file := env.logPath t
        pid := some (env.spawnPid t)
        assigned_gpus := gpus
        status := .running
        started_at := some env.now }, true)
  else
    ({ t with
        log_file := env.logPath t
        status := .failed
        error_message := env.spawnErr t
        finished_at := some env.now }, false)

/-- The record written by the reap phase when `check` returns an exit
code (`scheduler.py` lines 74-86). -/
def reapRecord (t : Task) (code : Int) (now : Int) : Task :=
  if code == 0 then
    { t with exit_code := some code, finished_at := some now,
             status := .completed }
  else
    { t with exit_code := some code, finished_at := some now,
             status := .failed,
             error_message := "Process exited with code " ++ toString code }

/-- The body of the reap loop: iterate over the snapshot of running
tasks taken at tick start, persisting each observed exit via
`update_task` on the evolving store. -/
def reapFold (env : TickEnv) : List Task → Store → Store
  | [], store => store
  | t :: rest, store =>
      reapFold env rest
        (match env.check t with
         | none => store
         | some code => updateTask (reapRecord t code env.now) store)

/-- `Scheduler._check_running_tasks` (`scheduler.py` lines 67-88). -/
def checkRunningTasks (env : TickEnv) (store : Store) : Store :=
  reapFold env (getRunningTasks store) store

/-- One probe-and-match call from the admission loop
(`scheduler.py` line 113): `None` on NVML failure, otherwise
`check_requirements` against the snapshot taken for this call. -/
def availableGpus (env : TickEnv) (t : Task) : Option (List Int) :=
  match env.probe t with
  | none => none
  | some snap => checkRequirements t.requirements snap

/-- The admission loop over the pending snapshot (`scheduler.py` lines
104-126): re-check the concurrency limit against the live store before
each task (`break` on reach), skip tasks whose match is falsy
(`None` or `[]`), and persist the started-or-failed record otherwise. -/
def admissionLoop (env : TickEnv) : List Task → Store → Store
  | [], store => store
  | t :: rest, store =>
      if env.maxConcurrent ≤ (getRunningTasks store).length then
        store
      else
        match availableGpus env t with
        | none => admissionLoop env rest store
        | some gpus =>
            if gpus.isEmpty then
              admissionLoop env rest store
            else
              admissionLoop env rest (updateTask (startTask env t gpus).1 store)

/-- `Scheduler._schedule_pending_tasks` (`scheduler.py` lines 90-126):
return immediately when the concurrency limit is already reached,
otherwise run the admission loop over the sorted pending snapshot. -/
def schedulePendingTasks (env : TickEnv) (store : Store) : Store :=
  if env.maxConcurrent ≤ (getRunningTasks store).length then store
  else admissionLoop env (getPendingTasks store) store

/-- `Scheduler._tick` (`scheduler.py` lines 58-65): reap, then admission. -/
def tick (env : TickEnv) (store : Store) : Store :=
  schedulePendingTasks env (checkRunningTasks env store)

/-- `handle_cancel` (`__main__.py` lines 89-100): a running task is
killed (process-table effect) and written back cancelled with
`finished_at = now`; otherwise the store's pending-only `cancel_task`
runs; a missing id changes nothing. -/
def handleCancel (id : String) (now : Int) (ts : Store) : Store × Bool :=
  match getTask id ts with
  | some t =>
      if t.status == TaskStatus.running then
        (updateTask { t with status := .cancelled, finished_at := some now } ts, true)
      else
        cancelTask id now ts
  | none => (ts, false)

/-- Parameters of a `submit` request (`__main__.py` lines 60-76), after
defaulting. -/
structure SubmitParams where
  name : String := ""
  command : String := ""
  working_dir : String := ""
  env : List (String × String) := []
  gpu_ids : Option (List Int) := none
  min_free_memory_gb : ℚ := 0
  max_util_percent : ℚ := 100
  gpu_count : Int := 1
  priority : Int := 0

/-- The task constructed by `handle_submit` (`__main__.py` lines 60-76):
dataclass defaults give `status = PENDING`, `created_at = now`, empty
`assigned_gpus` and unset runtime fields; `id` is the fresh uuid prefix. -/
def submitTask (p : SubmitParams) (id : String) (now : Int) : Task :=
  { id := id
    name := p.name
    command := p.command
    working_dir := p.working_dir
    env := p.env
    requirements :=
      { gpu_ids := p.gpu_ids
        min_free_memory_gb := p.min_free_memory_gb
        max_util_percent := p.max_util_percent
        gpu_count := p.gpu_count }
    status := .pending
    priority := p.priority
    created_at := now }

/-! ### Request router (`server.py`) -/

/-- A decoded request: `action` may be absent (`request.get("action")`)
and `params` is the opaque keyword payload. -/
structure Request where
  action : Option String
  params : List (String × String)

/-- A router response `{"success": bool, "data"?: ..., "error"?: str}`;
the handler payload is abstracted to a string. -/
structure Response where
  success : Bool
  data : Option String
  error : Option String
deriving DecidableEq, Repr

/-- The dispatch table registered in `__main__.py` lines 112-118. -/
def recognizedActions : List String :=
  ["submit", "status", "list", "cancel", "logs"]

/-- Outcome oracle for a registered handler call: `Except.error` models a
raised exception, whose text the router reports. -/
structure HandlerEnv where
  handle : String → List (String × String) → Except String String

/-- `UnixSocketServer._process_request` (`server.py` lines 110-126).
Python `if not action` is true for a missing and for an empty action
string; an unregistered action yields the f-string
`"Unknown action: {action}"`. -/
def processRequest (henv : HandlerEnv) (req : Request) : Response :=
  match req.action with
  | none => { success := false, data := none, error := some "Missing 'action' field" }
  | some a =>
      if a == "" then
        { success := false, data := none, error := some "Missing 'action' field" }
      else if !(recognizedActions.contains a) then
        { success := false, data := none, error := some ("Unknown action: " ++ a) }
      else
        match henv.handle a req.params with
        | .ok d => { success := true, data := some d, error := none }
        | .error e => { success := false, data := none, error := some e }

/-! ### The daemon as a transition system

One atomic operation of the daemon on the store: a scheduler tick, a
cancel request, a submit request, or a cleanup pass.  `max` is the
configured `max_concurrent_tasks`, fixed for the daemon's lifetime. -/

/-- A single daemon operation on the store. -/
inductive DaemonStep (max : Nat) : Store → Store → Prop
  | tick (env : TickEnv) (hm : env.maxConcurrent = max) (ts : Store) :
      DaemonStep max ts (tick env ts)
  | cancel (id : String) (now : Int) (ts : Store) :
      DaemonStep max ts (handleCancel id now ts).1
  | submit (p : SubmitParams) (id : String) (now : Int) (ts : Store) :
      DaemonStep max ts (addTask (submitTask p id now) ts)
  | cleanup (days now : Int) (ts : Store) :
      DaemonStep max ts (cleanupOldTasks days now ts).1

/-- States reachable from the empty store by daemon operations. -/
def Reachable (max : Nat) (ts : Store) : Prop :=
  Relation.ReflTransGen (DaemonStep max) [] ts

/-- Number of running records, `len(get_running_tasks())`. -/
def countRunning (ts : Store) : Nat :=
  (getRunningTasks ts).length

/-! ### Store lemmas -/

theorem getTask_cons (t : Task) (ts : Store) (i : String) :
    getTask i (t :: ts) = if t.id = i then some t else getTask i ts := by
  by_cases h : t.id = i <;> simp [getTask, List.find?_cons, h]

theorem updateTask_cons (u t : Task) (ts : Store) :
    updateTask u (t :: ts) = if t.id = u.id then u :: ts else t :: updateTask u ts := by
  by_cases h : t.id = u.id <;> simp [updateTask, h]

theorem nodup_map_id_cons (t : Task) (ts : Store)
    (hn : ((t :: ts).map Task.id).Nodup) :
    t.id ∉ ts.map Task.id ∧ (ts.map Task.id).Nodup := by
  rw [List.map_cons] at hn
  exact ⟨(List.nodup_cons.mp hn).1, (List.nodup_cons.mp hn).2⟩

theorem updateTask_map_id (u : Task) (ts : Store) :
    (updateTask u ts).map Task.id = ts.map Task.id := by
  induction ts with
  | nil => rfl
  | cons t rest ih =>
      rw [updateTask_cons]
      by_cases h : t.id = u.id
      · simp [h]
      · simp [h, ih]

theorem getTask_eq_some (i : String) (ts : Store) (t : Task)
    (h : getTask i ts = some t) : t ∈ ts ∧ t.id = i := by
  refine ⟨List.mem_of_find?_eq_some h, ?_⟩
  have := List.find?_some h
  simpa using this

theorem getTask_of_forall_ne (i : String) (ts : Store)
    (h : ∀ u ∈ ts, u.id ≠ i) : getTask i ts = none := by
  apply List.find?_eq_none.mpr
  intro u hu
  simpa using h u hu

theorem getTask_of_mem_nodup (ts : Store) (t : Task)
    (hn : (ts.map Task.id).Nodup) (ht : t ∈ ts) : getTask t.id ts = some t := by
  induction ts with
  | nil => cases ht
  | cons u rest ih =>
      obtain ⟨hn1, hn2⟩ := nodup_map_id_cons u rest hn
      rw [getTask_cons]
      rcases List.mem_cons.mp ht with h | h
      · subst h
        simp
      · have hne : u.id ≠ t.id := fun he =>
          hn1 (he ▸ List.mem_map_of_mem Task.id h)
        simp [hne, ih hn2 h]

theorem getTask_updateTask_ne (u : Task) (i : String) (ts : Store)
    (h : u.id ≠ i) : getTask i (updateTask u ts) = getTask i ts := by
  induction ts with
  | nil => rfl
  | cons t rest ih =>
      rw [updateTask_cons]
      by_cases he : t.id = u.id
      · rw [if_pos he, getTask_cons, getTask_cons, if_neg h,
          if_neg (show t.id ≠ i by rw [he]; exact h)]
      · rw [if_neg he, getTask_cons, getTask_cons, ih]

theorem getTask_updateTask_self (u : Task) (ts : Store) (x : Task)
    (h : getTask u.id ts = some x) : getTask u.id (updateTask u ts) = some u := by
  induction ts with
  | nil => simp [getTask] at h
  | cons t rest ih =>
      rw [updateTask_cons]
      by_cases he : t.id = u.id
      · rw [if_pos he, getTask_cons, if_pos rfl]
      · rw [getTask_cons, if_neg he] at h
        rw [if_neg he, getTask_cons, if_neg he, ih h]

theorem getTask_append_left (i : String) (ts l : Store) (t : Task)
    (h : getTask i ts = some t) : getTask i (ts ++ l) = some t := by
  induction ts with
  | nil => simp [getTask] at h
  | cons u rest ih =>
      rw [getTask_cons] at h
      rw [List.cons_append, getTask_cons]
      by_cases he : u.id = i
      · rw [if_pos he] at h ⊢
        exact h
      · rw [if_neg he] at h ⊢
        exact ih h

theorem getTask_filter (p : Task → Bool) (i : String) (ts : Store) (t : Task)
    (hn : (ts.map Task.id).Nodup) (h : getTask i ts = some t) :
    getTask i (ts.filter p) = none ∨ getTask i (ts.filter p) = some t := by
  induction ts with
  | nil => simp [getTask] at h
  | cons u rest ih =>
      obtain ⟨hn1, hn2⟩ := nodup_map_id_cons u rest hn
      rw [getTask_cons] at h
      by_cases he : u.id = i
      · rw [if_pos he] at h
        have hu : u = t := by exact Option.some.inj h
        subst hu
        by_cases hp : p u
        · right
          rw [List.filter_cons_of_pos hp, getTask_cons, if_pos he]
        · left
          rw [List.filter_cons_of_neg hp]
          apply getTask_of_forall_ne
          intro v hv hvi
          have hv2 : v ∈ rest := List.mem_of_mem_filter hv
          exact hn1 (by
            rw [he, ← hvi]
            exact List.mem_map_of_mem Task.id hv2)
      · rw [if_neg he] at h
        have := ih hn2 h
        by_cases hp : p u
        · rw [List.filter_cons_of_pos hp, getTask_cons, if_neg he]
          exact this
        · rw [List.filter_cons_of_neg hp]
          exact this

theorem countRunning_cons (t : Task) (ts : Store) :
    countRunning (t :: ts) =
      (if t.status = TaskStatus.running then 1 else 0) + countRunning ts := by
  by_cases h : t.status = TaskStatus.running <;>
    simp [countRunning, getRunningTasks, List.filter_cons, h, Nat.add_comm]

theorem countRunning_updateTask_le (u : Task) (ts : Store) :
    countRunning (updateTask u ts) ≤ countRunning ts + 1 := by
  induction ts with
  | nil => simp [updateTask, countRunning, getRunningTasks]
  | cons t rest ih =>
      by_cases he : t.id = u.id
      · simp only [updateTask, he, beq_self_eq_true, if_true, countRunning_cons]
        split <;> split <;> omega
      · simp only [updateTask, beq_iff_eq, he, if_false, countRunning_cons]
        omega

theorem countRunning_updateTask_of_not_running (u : Task) (ts : Store)
    (h : u.status ≠ TaskStatus.running) :
    countRunning (updateTask u ts) ≤ countRunning ts := by
  induction ts with
  | nil => simp [updateTask]
  | cons t rest ih =>
      by_cases he : t.id = u.id
      · simp only [updateTask, he, beq_self_eq_true, if_true, countRunning_cons, h,
          if_false]
        split <;> omega
      · simp only [updateTask, beq_iff_eq, he, if_false, countRunning_cons]
        omega

theorem countRunning_filter_le (p : Task → Bool) (ts : Store) :
    countRunning (ts.filter p) ≤ countRunning ts := by
  have : ((ts.filter p).filter fun t => t.status == TaskStatus.running).Sublist
      (ts.filter fun t => t.status == TaskStatus.running) :=
    (List.filter_sublist ts).filter _
  simpa [countRunning, getRunningTasks] using this.length_le

/-! ### Scheduler lemmas -/

theorem reapRecord_id (t : Task) (code now : Int) :
    (reapRecord t code now).id = t.id := by
  by_cases h : code = 0 <;> simp [reapRecord, h]

theorem reapRecord_status_ne_running (t : Task) (code now : Int) :
    (reapRecord t code now).status ≠ TaskStatus.running := by
  by_cases h : code = 0 <;> simp [reapRecord, h]

theorem startTask_id (env : TickEnv) (t : Task) (g : List Int) :
    (startTask env t g).1.id = t.id := by
  by_cases h : env.spawnOk t <;> simp [startTask, h]

theorem reapFold_map_id (env : TickEnv) (l : List Task) (acc : Store) :
    (reapFold env l acc).map Task.id = acc.map Task.id := by
  induction l generalizing acc with
  | nil => rfl
  | cons t rest ih =>
      cases hc : env.check t with
      | none => simp [reapFold, hc, ih]
      | some code => simp [reapFold, hc, ih, updateTask_map_id]

theorem getTask_reapFold_of_ne (env : TickEnv) (l : List Task) (acc : Store)
    (i : String) (h : ∀ u ∈ l, u.id ≠ i) :
    getTask i (reapFold env l acc) = getTask i acc := by
  induction l generalizing acc with
  | nil => rfl
  | cons t rest ih =>
      have ht : t.id ≠ i := h t (List.mem_cons_self t rest)
      have hrest : ∀ u ∈ rest, u.id ≠ i := fun u hu => h u (List.mem_cons_of_mem t hu)
      cases hc : env.check t with
      | none => simp only [reapFold, hc]; exact ih _ hrest
      | some code =>
          simp only [reapFold, hc]
          rw [ih _ hrest, getTask_updateTask_ne _ _ _ (by rw [reapRecord_id]; exact ht)]

theorem countRunning_reapFold_le (env : TickEnv) (l : List Task) (acc : Store) :
    countRunning (reapFold env l acc) ≤ countRunning acc := by
  induction l generalizing acc with
  | nil => exact le_refl _
  | cons t rest ih =>
      cases hc : env.check t with
      | none => simp only [reapFold, hc]; exact ih _
      | some code =>
          simp only [reapFold, hc]
          exact le_trans (ih _)
            (countRunning_updateTask_of_not_running _ _
              (reapRecord_status_ne_running t code env.now))

theorem getTask_reapFold_mem (env : TickEnv) (l : List Task) (acc : Store)
    (t : Task) (hl : (l.map Task.id).Nodup) (ht : t ∈ l)
    (hacc : getTask t.id acc = some t) :
    getTask t.id (reapFold env l acc) =
      some (match env.check t with
            | none => t
            | some code => reapRecord t code env.now) := by
  induction l generalizing acc with
  | nil => cases ht
  | cons u rest ih =>
      obtain ⟨hn1, hn2⟩ := nodup_map_id_cons u rest hl
      rcases List.mem_cons.mp ht with h | h
      · subst h
        have hrest : ∀ v ∈ rest, v.id ≠ t.id := fun v hv he =>
          hn1 (he ▸ List.mem_map_of_mem Task.id hv)
        cases hc : env.check t with
        | none =>
            simp only [reapFold, hc]
            rw [getTask_reapFold_of_ne env rest _ _ hrest, hacc]
        | some code =>
            simp only [reapFold, hc]
            rw [getTask_reapFold_of_ne env rest _ _ hrest]
            have := getTask_updateTask_self (reapRecord t code env.now) acc t
              (by rw [reapRecord_id]; exact hacc)
            rw [reapRecord_id] at this
            exact this
      · have hu : u.id ≠ t.id := fun he =>
          hn1 (he ▸ List.mem_map_of_mem Task.id h)
        cases hc : env.check u with
        | none =>
            simp only [reapFold, hc]
            exact ih _ hn2 h hacc
        | some code =>
            simp only [reapFold, hc]
            refine ih _ hn2 h ?_
            rw [getTask_updateTask_ne _ _ _ (by rw [reapRecord_id]; exact hu)]
            exact hacc

theorem admissionLoop_map_id (env : TickEnv) (l : List Task) (acc : Store) :
    (admissionLoop env l acc).map Task.id = acc.map Task.id := by
  induction l generalizing acc with
  | nil => rfl
  | cons t rest ih =>
      by_cases hg : env.maxConcurrent ≤ (getRunningTasks acc).length
      · simp [admissionLoop, hg]
      · cases ha : availableGpus env t with
        | none => simp [admissionLoop, hg, ha, ih]
        | some gpus =>
            by_cases he : gpus.isEmpty
            · simp [admissionLoop, hg, ha, he, ih]
            · simp [admissionLoop, hg, ha, he, ih, updateTask_map_id]

theorem getTask_admissionLoop_of (env : TickEnv) (l : List Task) (acc : Store)
    (i : String)
    (h : ∀ u ∈ l, u.id ≠ i ∨ availableGpus env u = none ∨
      availableGpus env u = some []) :
    getTask i (admissionLoop env l acc) = getTask i acc := by
  induction l generalizing acc with
  | nil => rfl
  | cons t rest ih =>
      have hrest : ∀ u ∈ rest, u.id ≠ i ∨ availableGpus env u = none ∨
          availableGpus env u = some [] :=
        fun u hu => h u (List.mem_cons_of_mem t hu)
      by_cases hg : env.maxConcurrent ≤ (getRunningTasks acc).length
      · simp [admissionLoop, hg]
      · cases ha : availableGpus env t with
        | none => simp only [admissionLoop, if_neg hg, ha]; exact ih _ hrest
        | some gpus =>
            by_cases he : gpus.isEmpty
            · simp only [admissionLoop, if_neg hg, ha, if_pos he]
              exact ih _ hrest
            · simp only [admissionLoop, if_neg hg, ha, if_neg he]
              rcases h t (List.mem_cons_self t rest) with hne | hnone | hempty
              · rw [ih _ hrest,
                  getTask_updateTask_ne _ _ _ (by rw [startTask_id]; exact hne)]
              · rw [ha] at hnone; cases hnone
              · rw [ha] at hempty
                have : gpus = [] := Option.some.inj hempty
                subst this
                simp at he

theorem countRunning_updateTask_lt (u : Task) (acc : Store) (max : Nat)
    (h : countRunning acc < max) : countRunning (updateTask u acc) ≤ max :=
  le_trans (countRunning_updateTask_le u acc) (by omega)

theorem countRunning_admissionLoop_le (env : TickEnv) (l : List Task) (acc : Store)
    (h : countRunning acc ≤ env.maxConcurrent) :
    countRunning (admissionLoop env l acc) ≤ env.maxConcurrent := by
  induction l generalizing acc with
  | nil => exact h
  | cons t rest ih =>
      by_cases hg : env.maxConcurrent ≤ (getRunningTasks acc).length
      · simpa [admissionLoop, hg] using h
      · have hlt : countRunning acc < env.maxConcurrent := by
          simpa [countRunning] using Nat.lt_of_not_le hg
        cases ha : availableGpus env t with
        | none => simp only [admissionLoop, if_neg hg, ha]; exact ih _ h
        | some gpus =>
            by_cases he : gpus.isEmpty
            · simp only [admissionLoop, if_neg hg, ha, if_pos he]
              exact ih _ h
            · simp only [admissionLoop, if_neg hg, ha, if_neg he]
              exact ih _ (countRunning_updateTask_lt _ _ _ hlt)

theorem countRunning_tick_le (env : TickEnv) (ts : Store)
    (h : countRunning ts ≤ env.maxConcurrent) :
    countRunning (tick env ts) ≤ env.maxConcurrent := by
  have h1 : countRunning (checkRunningTasks env ts) ≤ env.maxConcurrent :=
    le_trans (countRunning_reapFold_le env _ ts) h
  unfold tick schedulePendingTasks
  by_cases hg : env.maxConcurrent ≤ (getRunningTasks (checkRunningTasks env ts)).length
  · simpa [hg] using h1
  · simp only [if_neg hg]
    exact countRunning_admissionLoop_le env _ _ h1

theorem mem_getRunningTasks (ts : Store) (u : Task) (hu : u ∈ getRunningTasks ts) :
    u ∈ ts ∧ u.status = TaskStatus.running := by
  refine ⟨List.mem_of_mem_filter hu, ?_⟩
  have := List.of_mem_filter hu
  simpa using this

theorem mem_getPendingTasks (ts : Store) (u : Task) (hu : u ∈ getPendingTasks ts) :
    u ∈ ts ∧ u.status = TaskStatus.pending := by
  have hmem : u ∈ ts.filter fun t => t.status == TaskStatus.pending :=
    (List.mergeSort_perm _ pendKeyLE).mem_iff.mp hu
  refine ⟨List.mem_of_mem_filter hmem, ?_⟩
  have := List.of_mem_filter hmem
  simpa using this

/-- A tick leaves the record with id `i` untouched whenever that record
is not running (so the reap phase skips it) and, if pending, its match
is falsy (so the admission phase skips it as well). -/
theorem getTask_tick_preserved (env : TickEnv) (ts : Store) (i : String) (t : Task)
    (hn : (ts.map Task.id).Nodup) (hget : getTask i ts = some t)
    (hnotrun : t.status ≠ TaskStatus.running)
    (hnopend : t.status = TaskStatus.pending →
      availableGpus env t = none ∨ availableGpus env t = some []) :
    getTask i (tick env ts) = some t := by
  obtain ⟨htmem, htid⟩ := getTask_eq_some i ts t hget
  have hrun_ne : ∀ u ∈ getRunningTasks ts, u.id ≠ i := by
    intro u hu hui
    obtain ⟨hu_mem, hu_run⟩ := mem_getRunningTasks ts u hu
    have heq : u = t :=
      List.inj_on_of_nodup_map hn hu_mem htmem (by rw [hui, htid])
    rw [heq] at hu_run
    exact hnotrun hu_run
  have h1 : getTask i (checkRunningTasks env ts) = some t := by
    unfold checkRunningTasks
    rw [getTask_reapFold_of_ne env _ ts i hrun_ne]
    exact hget
  have hn1 : ((checkRunningTasks env ts).map Task.id).Nodup := by
    unfold checkRunningTasks
    rw [reapFold_map_id]
    exact hn
  obtain ⟨ht1mem, _⟩ := getTask_eq_some i _ t h1
  unfold tick schedulePendingTasks
  by_cases hg : env.maxConcurrent ≤
      (getRunningTasks (checkRunningTasks env ts)).length
  · simpa [hg] using h1
  · simp only [if_neg hg]
    rw [getTask_admissionLoop_of env _ _ i ?_]
    · exact h1
    · intro u hu
      by_cases hui : u.id = i
      · obtain ⟨hu_mem, hu_pend⟩ := mem_getPendingTasks _ u hu
        have heq : u = t :=
          List.inj_on_of_nodup_map hn1 hu_mem ht1mem (by rw [hui, htid])
        right
        rw [heq]
        exact hnopend (heq ▸ hu_pend)
      · exact Or.inl hui

theorem countRunning_handleCancel_le (id : String) (now : Int) (ts : Store) :
    countRunning (handleCancel id now ts).1 ≤ countRunning ts := by
  unfold handleCancel
  cases hq : getTask id ts with
  | none => exact le_refl _
  | some u =>
      by_cases hr : u.status = TaskStatus.running
      · simp only [hr, beq_self_eq_true, if_true]
        exact countRunning_updateTask_of_not_running _ _ (by simp)
      · simp only [beq_iff_eq, hr, if_false]
        unfold cancelTask
        rw [hq]
        by_cases hp : u.status = TaskStatus.pending
        · simp only [hp, beq_self_eq_true, if_true]
          exact countRunning_updateTask_of_not_running _ _ (by simp)
        · simp only [beq_iff_eq, hp, if_false]
          exact le_refl _

theorem countRunning_addTask_pending (t : Task) (ts : Store)
    (h : t.status = TaskStatus.pending) :
    countRunning (addTask t ts) = countRunning ts := by
  simp [countRunning, getRunningTasks, addTask, List.filter_append, h]

theorem countRunning_step_le (max : Nat) (ts ts' : Store)
    (h : DaemonStep max ts ts') (hc : countRunning ts ≤ max) :
    countRunning ts' ≤ max := by
  cases h with
  | tick env hm ts =>
      rw [← hm] at hc ⊢
      exact countRunning_tick_le env ts hc
  | cancel id now ts =>
      exact le_trans (countRunning_handleCancel_le id now ts) hc
  | submit p id now ts =>
      rw [countRunning_addTask_pending _ _ rfl]
      exact hc
  | cleanup days now ts =>
      exact le_trans (countRunning_filter_le _ ts) hc

/-- A cancel request leaves the record with id `i` untouched whenever
that record is terminal: the running branch and the pending-only store
branch both rewrite only a non-terminal record. -/
theorem getTask_handleCancel_preserved (id : String) (now : Int) (ts : Store)
    (i : String) (t : Task) (hn : (ts.map Task.id).Nodup)
    (hget : getTask i ts = some t) (hterm : t.status.isTerminal = true) :
    getTask i (handleCancel id now ts).1 = some t := by
  obtain ⟨htmem, htid⟩ := getTask_eq_some i ts t hget
  unfold handleCancel
  cases hq : getTask id ts with
  | none => exact hget
  | some u =>
      obtain ⟨humem, huid⟩ := getTask_eq_some id ts u hq
      have hne : ∀ s, u.status = s → TaskStatus.isTerminal s = false → u.id ≠ i := by
        intro s hs hsf hui
        have heq : u = t :=
          List.inj_on_of_nodup_map hn humem htmem (by rw [hui, htid])
        rw [heq] at hs
        rw [hs] at hterm
        rw [hterm] at hsf
        cases hsf
      by_cases hr : u.status = TaskStatus.running
      · simp only [hr, beq_self_eq_true, if_true]
        rw [getTask_updateTask_ne _ _ _ (by simpa using hne _ hr rfl)]
        exact hget
      · simp only [beq_iff_eq, hr, if_false]
        unfold cancelTask
        rw [hq]
        by_cases hp : u.status = TaskStatus.pending
        · simp only [hp, beq_self_eq_true, if_true]
          rw [getTask_updateTask_ne _ _ _ (by simpa using hne _ hp rfl)]
          exact hget
        · simp only [beq_iff_eq, hp, if_false]
          exact hget

/-! ### Claim C1 — terminal-status monotonicity -/

/-- C1.  Terminal-status monotonicity: if the record found for id `i`
has a terminal status (`completed`, `failed` or `cancelled`), then after
any single daemon operation — a scheduler tick, a cancel request, a
submit, or a cleanup pass — the lookup of `i` either finds the very same
record or (only through cleanup) finds nothing: in particular the status
is never changed to any other value, and a reap tick that would observe
a real exit code for an already-cancelled task never reclassifies it as
`failed` or `completed`, because the reap phase only rewrites records
that are `running` when the tick starts. -/
theorem terminal_status_monotone (max : Nat) (ts ts' : Store) (i : String)
    (t : Task) (hstep : DaemonStep max ts ts')
    (hn : (ts.map Task.id).Nodup) (hget : getTask i ts = some t)
    (hterm : t.status.isTerminal = true) :
    getTask i ts' = none ∨ getTask i ts' = some t := by
  have hnotrun : t.status ≠ TaskStatus.running := by
    intro h
    rw [h] at hterm
    cases hterm
  cases hstep with
  | tick env hm ts =>
      right
      exact getTask_tick_preserved env ts i t hn hget hnotrun
        (fun hp => by rw [hp] at hterm; cases hterm)
  | cancel id now ts =>
      right
      exact getTask_handleCancel_preserved id now ts i t hn hget hterm
  | submit p id now ts =>
      right
      exact getTask_append_left i ts _ t hget
  | cleanup days now ts =>
      exact getTask_filter _ i ts t hn hget

/-- Concrete instantiation of C1: a cancelled record survives a cancel
request aimed at it unchanged. -/
theorem terminal_status_monotone_witness :
    ((([({ id := "t", status := .cancelled, finished_at := some 0 } : Task)]).map
        Task.id).Nodup ∧
      getTask "t" [({ id := "t", status := .cancelled, finished_at := some 0 } : Task)] =
        some { id := "t", status := .cancelled, finished_at := some 0 } ∧
      TaskStatus.isTerminal (TaskStatus.cancelled) = true) ∧
    (getTask "t"
        (handleCancel "t" 3
          [({ id := "t", status := .cancelled, finished_at := some 0 } : Task)]).1 =
        none ∨
      getTask "t"
        (handleCancel "t" 3
          [({ id := "t", status := .cancelled, finished_at := some 0 } : Task)]).1 =
        some { id := "t", status := .cancelled, finished_at := some 0 }) :=
  ⟨⟨by simp, rfl, rfl⟩,
    terminal_status_monotone 4 _ _ "t" _
      (DaemonStep.cancel "t" 3 _) (by simp) rfl rfl⟩

/-! ### Claim C2 — concurrency cap -/

/-- C2.  Concurrency cap: in every store reachable from the empty store
by daemon operations (ticks with the configured `max_concurrent_tasks`,
cancels, submits, cleanups), the number of running records never
exceeds `max_concurrent_tasks`.  The admission phase returns at once
when `len(running) ≥ max` and re-checks the live running count before
each individual spawn, so each spawn starts from a count `< max`. -/
theorem running_le_max_concurrent (max : Nat) (ts : Store)
    (h : Reachable max ts) : countRunning ts ≤ max := by
  induction h with
  | refl => simp [countRunning, getRunningTasks]
  | tail _ hstep ih => exact countRunning_step_le max _ _ hstep ih

/-- Concrete instantiation of C2 at a one-submit reachable store. -/
theorem running_le_max_concurrent_witness :
    Reachable 4 (addTask (submitTask {} "a" 0) []) ∧
      countRunning (addTask (submitTask {} "a" 0) []) ≤ 4 :=
  ⟨Relation.ReflTransGen.single (DaemonStep.submit {} "a" 0 []),
    running_le_max_concurrent 4 _
      (Relation.ReflTransGen.single (DaemonStep.submit {} "a" 0 []))⟩

/-! ### Claim C3 — matching algorithm -/

/-- Device admissibility in the words of the (amended) spec sentence: a
device survives iff its index is listed whenever `gpu_ids` is present
and non-empty (an empty or absent list allows any index), its free
memory `free_mb/1024` is at least `min_free_memory_gb`, and its
utilization is at most `max_util_percent`.  Spec-side definition, to be
compared with the source-side `gpuEligible`. -/
def gpuEligibleSpec (req : GPURequirement) (g : GPUStatus) : Bool :=
  (match req.gpu_ids with
   | none => true
   | some l => l.isEmpty || l.contains g.index) &&
  decide (req.min_free_memory_gb ≤ g.free_memory_gb) &&
  decide ((g.utilization_percent : ℚ) ≤ req.max_util_percent)

theorem decide_le_eq_not_decide_lt (a b : ℚ) :
    decide (a ≤ b) = !decide (b < a) := by
  by_cases h : b < a
  · simp [h, not_le.mpr h]
  · simp [h, not_lt.mp h]

theorem gpuEligible_eq_spec (req : GPURequirement) (g : GPUStatus) :
    gpuEligible req g = gpuEligibleSpec req g := by
  have hle1 : decide (req.min_free_memory_gb ≤ g.free_memory_gb) =
      !decide (g.free_memory_gb < req.min_free_memory_gb) :=
    decide_le_eq_not_decide_lt _ _
  have hle2 : decide ((g.utilization_percent : ℚ) ≤ req.max_util_percent) =
      !decide (req.max_util_percent < (g.utilization_percent : ℚ)) :=
    decide_le_eq_not_decide_lt _ _
  unfold gpuEligible gpuEligibleSpec optListTruthy
  cases hid : req.gpu_ids with
  | none =>
      by_cases h1 : g.free_memory_gb < req.min_free_memory_gb <;>
        by_cases h2 : (g.utilization_percent : ℚ) > req.max_util_percent <;>
          simp [h1, h2, not_lt, hle1, hle2]
  | some l =>
      by_cases hl : l.isEmpty <;>
        by_cases hc : g.index ∈ l <;>
          by_cases h1 : g.free_memory_gb < req.min_free_memory_gb <;>
            by_cases h2 : (g.utilization_percent : ℚ) > req.max_util_percent <;>
              simp [hl, hc, h1, h2, not_lt, hle1, hle2]

theorem pySlice_nonneg {α : Type} (l : List α) (k : Int) (h : 0 ≤ k) :
    pySlice l k = l.take k.toNat := by
  simp [pySlice, h]

/-- C3 (amended).  Matching algorithm: for a requirement with
`gpu_count ≥ 0` and a snapshot listed in strictly increasing device
index order (as `get_all_gpu_status` produces), `check_requirements`
restricts to the listed indices only when `gpu_ids` is present and
non-empty, drops devices failing the memory or utilization bound, and
returns the first `gpu_count` surviving indices — in device-index
order — when at least `gpu_count` survive, and `None` otherwise. -/
theorem check_requirements_matching (req : GPURequirement)
    (snap : List GPUStatus)
    (hsorted : snap.Pairwise fun a b => a.index < b.index)
    (hcount : 0 ≤ req.gpu_count) :
    checkRequirements req snap =
      (if req.gpu_count ≤
          (((snap.filter (gpuEligibleSpec req)).map GPUStatus.index).length : Int)
       then some (((snap.filter (gpuEligibleSpec req)).map GPUStatus.index).take
           req.gpu_count.toNat)
       else none) ∧
    ((snap.filter (gpuEligibleSpec req)).map GPUStatus.index).Pairwise (· < ·) := by
  have hfilter : snap.filter (gpuEligible req) = snap.filter (gpuEligibleSpec req) :=
    List.filter_congr fun g _ => gpuEligible_eq_spec req g
  constructor
  · unfold checkRequirements
    simp only [hfilter]
    rw [pySlice_nonneg _ _ hcount]
  · exact List.pairwise_map.mpr (hsorted.sublist (List.filter_sublist snap))

/-- Concrete counterexample to C3 as stated: with `gpu_ids = []`
(present but empty) the claim demands that no device be admissible, yet
the code treats the empty list as falsy and matches device 0. -/
theorem check_requirements_empty_ids_counterexample :
    checkRequirements
        { gpu_ids := some [], min_free_memory_gb := 1, max_util_percent := 100,
          gpu_count := 1 }
        [{ index := 0, free_memory_mb := 2048 }] = some [0] ∧
      (0 : Int) ∉ ([] : List Int) := by
  constructor
  · unfold checkRequirements gpuEligible optListTruthy GPUStatus.free_memory_gb
    norm_num [pySlice]
  · simp

/-- Concrete instantiation of amended C3 on a one-device snapshot with a
non-empty `gpu_ids` restriction. -/
theorem check_requirements_matching_witness :
    (([({ index := 0, free_memory_mb := 2048 } : GPUStatus)]).Pairwise
        (fun a b => a.index < b.index) ∧
      (0 : Int) ≤
        ({ gpu_ids := some [0], min_free_memory_gb := 1, max_util_percent := 100,
           gpu_count := 1 } : GPURequirement).gpu_count) ∧
    (checkRequirements
        { gpu_ids := some [0], min_free_memory_gb := 1, max_util_percent := 100,
          gpu_count := 1 }
        [{ index := 0, free_memory_mb := 2048 }] =
      (if ({ gpu_ids := some [0], min_free_memory_gb := 1, max_util_percent := 100,
             gpu_count := 1 } : GPURequirement).gpu_count ≤
          ((([({ index := 0, free_memory_mb := 2048 } : GPUStatus)]).filter
              (gpuEligibleSpec
                { gpu_ids := some [0], min_free_memory_gb := 1,
                  max_util_percent := 100, gpu_count := 1 })).map
            GPUStatus.index).length
       then some (((([({ index := 0, free_memory_mb := 2048 } : GPUStatus)]).filter
              (gpuEligibleSpec
                { gpu_ids := some [0], min_free_memory_gb := 1,
                  max_util_percent := 100, gpu_count := 1 })).map
            GPUStatus.index).take
          ({ gpu_ids := some [0], min_free_memory_gb := 1, max_util_percent := 100,
             gpu_count := 1 } : GPURequirement).gpu_count.toNat)
       else none) ∧
    ((([({ index := 0, free_memory_mb := 2048 } : GPUStatus)]).filter
        (gpuEligibleSpec
          { gpu_ids := some [0], min_free_memory_gb := 1, max_util_percent := 100,
            gpu_count := 1 })).map GPUStatus.index).Pairwise (· < ·)) :=
  ⟨⟨by simp, by decide⟩,
    check_requirements_matching
      { gpu_ids := some [0], min_free_memory_gb := 1, max_util_percent := 100,
        gpu_count := 1 }
      [{ index := 0, free_memory_mb := 2048 }] (by simp) (by decide)⟩

/-! ### Claim C4 — pending order -/

theorem pendKeyLE_trans (a b c : Task) (h1 : pendKeyLE a b = true)
    (h2 : pendKeyLE b c = true) : pendKeyLE a c = true := by
  simp only [pendKeyLE, decide_eq_true_eq] at h1 h2 ⊢
  omega

theorem pendKeyLE_total (a b : Task) :
    (pendKeyLE a b || pendKeyLE b a) = true := by
  simp only [pendKeyLE, Bool.or_eq_true, decide_eq_true_eq]
  omega

/-- C4.  Pending order: `get_pending_tasks` returns exactly the records
with status `pending` (as a permutation of that filter, computed by a
stable sort on the key `(-priority, created_at)`), and in the returned
list every earlier task either has strictly higher priority than every
later one or equal priority and an earlier-or-equal `created_at`.  The
function is deterministic: it is a pure function of the store
contents. -/
theorem pending_tasks_order (ts : Store) :
    (getPendingTasks ts).Perm
      (ts.filter fun t => t.status == TaskStatus.pending) ∧
    (getPendingTasks ts).Pairwise fun a b =>
      b.priority < a.priority ∨
        (a.priority = b.priority ∧ a.created_at ≤ b.created_at) := by
  constructor
  · exact List.mergeSort_perm _ pendKeyLE
  · have hs := List.sorted_mergeSort
      (fun a b c => pendKeyLE_trans a b c) (fun a b => pendKeyLE_total a b)
      (ts.filter fun t => t.status == TaskStatus.pending)
    refine hs.imp ?_
    intro a b h
    simp only [pendKeyLE, decide_eq_true_eq] at h
    omega

/-! ### Claim C5 — reap transitions -/

/-- C5.  Reap transitions: for a running task `t` in a store with unique
ids, after the reap phase the record with id `t.id` is unchanged when
`check` returns `None`, and otherwise carries `finished_at = now`,
`exit_code = code`, status `completed` when the code is zero and
`failed` with error message `"Process exited with code <code>"`
otherwise; the record is persisted through `update_task`. -/
theorem reap_transitions (env : TickEnv) (ts : Store) (t : Task)
    (hn : (ts.map Task.id).Nodup) (ht : t ∈ ts)
    (hrun : t.status = TaskStatus.running) :
    getTask t.id (checkRunningTasks env ts) =
      some (match env.check t with
            | none => t
            | some code =>
                if code = 0 then
                  { t with exit_code := some code, finished_at := some env.now,
                           status := .completed }
                else
                  { t with exit_code := some code, finished_at := some env.now,
                           status := .failed,
                           error_message :=
                             "Process exited with code " ++ toString code }) := by
  have htr : t ∈ getRunningTasks ts := by
    simp [getRunningTasks, List.mem_filter, ht, hrun]
  have hsub : ((getRunningTasks ts).map Task.id).Nodup :=
    List.Nodup.sublist (List.Sublist.map Task.id (List.filter_sublist ts)) hn
  have hacc : getTask t.id ts = some t := getTask_of_mem_nodup ts t hn ht
  have hfold := getTask_reapFold_mem env (getRunningTasks ts) ts t hsub htr hacc
  unfold checkRunningTasks
  rw [hfold]
  cases hc : env.check t with
  | none => rfl
  | some code =>
      by_cases h : code = 0 <;> simp [reapRecord, h]

/-- Concrete instantiation of C5: an exit code 3 marks the running task
failed with the literal error message. -/
theorem reap_transitions_witness :
    ((([({ id := "r", status := .running } : Task)]).map Task.id).Nodup ∧
      ({ id := "r", status := .running } : Task) ∈
        [({ id := "r", status := .running } : Task)] ∧
      ({ id := "r", status := .running } : Task).status = TaskStatus.running) ∧
    getTask ({ id := "r", status := .running } : Task).id
        (checkRunningTasks
          { check := fun _ => some 3, probe := fun _ => none,
            spawnOk := fun _ => false, spawnPid := fun _ => 0,
            spawnErr := fun _ => "", logPath := fun _ => "", now := 7,
            maxConcurrent := 4 }
          [({ id := "r", status := .running } : Task)]) =
      some (match
            ({ check := fun _ => some 3, probe := fun _ => none,
               spawnOk := fun _ => false, spawnPid := fun _ => 0,
               spawnErr := fun _ => "", logPath := fun _ => "", now := 7,
               maxConcurrent := 4 } : TickEnv).check
              { id := "r", status := .running } with
            | none => ({ id := "r", status := .running } : Task)
            | some code =>
                if code = 0 then
                  { ({ id := "r", status := .running } : Task) with
                      exit_code := some code, finished_at := some (7 : Int),
                      status := .completed }
                else
                  { ({ id := "r", status := .running } : Task) with
                      exit_code := some code, finished_at := some (7 : Int),
                      status := .failed,
                      error_message :=
                        "Process exited with code " ++ toString code }) :=
  ⟨⟨by simp, by simp, rfl⟩,
    reap_transitions
      { check := fun _ => some 3, probe := fun _ => none,
        spawnOk := fun _ => false, spawnPid := fun _ => 0,
        spawnErr := fun _ => "", logPath := fun _ => "", now := 7,
        maxConcurrent := 4 }
      [{ id := "r", status := .running }] { id := "r", status := .running }
      (by simp) (by simp) rfl⟩

/-! ### Claim C6 — serialization round trip -/

theorem taskStatus_value_round_trip (s : TaskStatus) :
    TaskStatus.ofValue s.value = some s := by
  cases s <;> rfl

/-- C6.  Serialization round trip: reconstructing a task from its
persisted dictionary form restores every persisted field — id, name,
command, working_dir, env, requirements, status, priority, created_at,
started_at, finished_at, assigned_gpus, pid, exit_code, error_message
and log_file — for any value of the `datetime.now()` fallback used when
`created_at` is absent (the fallback never fires on a round trip). -/
theorem task_dict_round_trip (t : Task) (now : Int) :
    Task.from_dict (Task.to_dict t) now = some t := by
  unfold Task.from_dict Task.to_dict
  simp only [taskStatus_value_round_trip, Option.map_some]
  rfl

/-! ### Claim C7 — id uniqueness -/

/-- Concrete counterexample to C7 as stated: `add_task` appends
unconditionally, so adding a task whose id already exists in the store
destroys id uniqueness — the store operation does not preserve the
at-most-one-record-per-id property. -/
theorem add_task_duplicate_id_counterexample :
    (([({ id := "a" } : Task)]).map Task.id).Nodup ∧
      ¬(((addTask { id := "a" } [({ id := "a" } : Task)]).map Task.id).Nodup) := by
  constructor
  · simp
  · simp [addTask]

/-- C7 (amended).  Id uniqueness: every store mutation except `add_task`
preserves uniqueness of ids unconditionally — `update_task` rewrites a
record in place, `remove_task`, `cleanup_old_tasks` only drop records,
`cancel_task` rewrites in place — and `add_task` preserves it exactly
when the added task's id is not already present (the store itself never
checks; freshness comes from the uuid chosen at submission). -/
theorem store_mutations_preserve_unique_ids (ts : Store) (u t : Task)
    (i : String) (days now cnow : Int) (hn : (ts.map Task.id).Nodup) :
    ((updateTask u ts).map Task.id).Nodup ∧
    (((removeTask i ts).1).map Task.id).Nodup ∧
    (((cancelTask i cnow ts).1).map Task.id).Nodup ∧
    (((cleanupOldTasks days now ts).1).map Task.id).Nodup ∧
    (t.id ∉ ts.map Task.id → ((addTask t ts).map Task.id).Nodup) := by
  refine ⟨?_, ?_, ?_, ?_, ?_⟩
  · rw [updateTask_map_id]
    exact hn
  · exact List.Nodup.sublist (List.Sublist.map Task.id (List.filter_sublist ts)) hn
  · unfold cancelTask
    cases hq : getTask i ts with
    | none => exact hn
    | some v =>
        by_cases hp : v.status = TaskStatus.pending
        · simp only [hp, beq_self_eq_true, if_true]
          rw [updateTask_map_id]
          exact hn
        · simp only [beq_iff_eq, hp, if_false]
          exact hn
  · exact List.Nodup.sublist (List.Sublist.map Task.id (List.filter_sublist ts)) hn
  · intro h
    simp only [addTask, List.map_append, List.map_cons, List.map_nil]
    exact List.Nodup.append hn (List.nodup_singleton _)
      (by simpa [List.disjoint_singleton] using h)

/-- Concrete instantiation of amended C7 on a one-record store. -/
theorem store_mutations_preserve_unique_ids_witness :
    (([({ id := "a" } : Task)]).map Task.id).Nodup ∧
    (((updateTask { id := "a", status := .completed }
        [({ id := "a" } : Task)]).map Task.id).Nodup ∧
      (((removeTask "a" [({ id := "a" } : Task)]).1).map Task.id).Nodup ∧
      (((cancelTask "a" 2 [({ id := "a" } : Task)]).1).map Task.id).Nodup ∧
      (((cleanupOldTasks 7 9 [({ id := "a" } : Task)]).1).map Task.id).Nodup ∧
      (({ id := "b" } : Task).id ∉ ([({ id := "a" } : Task)]).map Task.id →
        ((addTask { id := "b" } [({ id := "a" } : Task)]).map Task.id).Nodup)) :=
  ⟨by simp,
    store_mutations_preserve_unique_ids [{ id := "a" }]
      { id := "a", status := .completed } { id := "b" } "a" 7 9 2 (by simp)⟩

/-! ### Claim C8 — cleanup predicate -/

/-- Removal predicate in the words of the (amended) spec sentence: a
record is removed iff its status is terminal and its `finished_at` is
absent or not after the cutoff `now − days`.  Spec-side definition, to
be compared with the source-side keep condition. -/
def cleanupRemovesSpec (maxAgeDays now : Int) (t : Task) : Bool :=
  t.status.isTerminal &&
    (match t.finished_at with
     | none => true
     | some f => decide (f ≤ now - maxAgeDays))

theorem cleanup_keep_eq_not_removes (days now : Int) (t : Task) :
    (!t.status.isTerminal ||
      (match t.finished_at with
       | some f => decide (f > now - days)
       | none => false)) = !cleanupRemovesSpec days now t := by
  unfold cleanupRemovesSpec
  cases hf : t.finished_at with
  | none => cases ht : t.status.isTerminal <;> simp
  | some f =>
      cases ht : t.status.isTerminal <;>
        by_cases h : f ≤ now - days <;> simp [h, not_le, not_lt, lt_of_not_le]

theorem filter_length_split (p : Task → Bool) (l : List Task) :
    (l.filter p).length + (l.filter fun a => !p a).length = l.length := by
  induction l with
  | nil => rfl
  | cons a l ih => by_cases h : p a <;> simp [List.filter_cons, h] <;> omega

/-- C8 (amended).  Cleanup predicate: `cleanup_old_tasks(days)` removes
exactly the records whose status is terminal and whose `finished_at` is
absent or not after `now − days` (the code removes at `finished_at ≤
cutoff`, i.e. also at exact equality, and removes terminal records with
no `finished_at` at all), leaves every other record unchanged in order,
and returns the number of records removed. -/
theorem cleanup_old_tasks_characterization (days now : Int) (ts : Store) :
    (cleanupOldTasks days now ts).1 =
      ts.filter (fun t => !cleanupRemovesSpec days now t) ∧
    (cleanupOldTasks days now ts).2 =
      (ts.filter (cleanupRemovesSpec days now)).length := by
  have hfl : ts.filter (fun t =>
      !t.status.isTerminal ||
        (match t.finished_at with
         | some f => decide (f > now - days)
         | none => false)) =
      ts.filter (fun t => !cleanupRemovesSpec days now t) :=
    List.filter_congr fun t _ => cleanup_keep_eq_not_removes days now t
  constructor
  · unfold cleanupOldTasks
    simpa using hfl
  · unfold cleanupOldTasks
    simp only []
    rw [show (ts.filter fun t =>
        !t.status.isTerminal ||
          (match t.finished_at with
           | some f => decide (f > now - days)
           | none => false)) =
        ts.filter (fun t => !cleanupRemovesSpec days now t) from by simpa using hfl]
    have := filter_length_split (cleanupRemovesSpec days now) ts
    omega

/-- Concrete counterexample to C8 as stated: a completed record finishing
exactly at the cutoff (`finished_at = now − days`) is not strictly older
than the cutoff, so the claim requires it to be left unchanged, yet the
code removes it (the keep test is strict `finished_at > cutoff`). -/
theorem cleanup_boundary_counterexample :
    (cleanupOldTasks 5 5
        [({ id := "d", status := .completed, finished_at := some 0 } : Task)]).1 =
      [] ∧
    ({ id := "d", status := .completed, finished_at := some 0 } : Task).finished_at =
      some 0 ∧
    ¬((0 : Int) < 5 - 5) := by
  refine ⟨?_, rfl, by decide⟩
  simp [cleanupOldTasks, TaskStatus.isTerminal]

/-! ### Claim C9 — unknown-action response -/

/-- C9 (amended).  Unknown-action response: for a request whose action
is present and non-empty (Python's `if not action` catches the empty
string first) but names no registered handler, the router responds with
`success = false` and the f-string error `"Unknown action: <action>"`
(not the bare `"Unknown action"`). -/
theorem unknown_action_response (henv : HandlerEnv) (req : Request)
    (a : String) (ha : req.action = some a) (hne : a ≠ "")
    (hunk : a ∉ recognizedActions) :
    processRequest henv req =
      { success := false, data := none,
        error := some ("Unknown action: " ++ a) } := by
  unfold processRequest
  rw [ha]
  have h1 : (a == "") = false := by simpa using hne
  have h2 : recognizedActions.contains a = false := by simpa using hunk
  simp only [h1, h2, Bool.not_false, if_false, if_true]
  simp [h2]

/-- Concrete counterexample to C9 as stated: the error string for the
unknown action `"foo"` is `"Unknown action: foo"`, not the claimed
literal `"Unknown action"`. -/
theorem unknown_action_literal_counterexample :
    (processRequest { handle := fun _ _ => Except.error "" }
        { action := some "foo", params := [] }).error =
      some "Unknown action: foo" ∧
    some "Unknown action: foo" ≠ some "Unknown action" := by
  constructor
  · rfl
  · simp

/-- Concrete instantiation of amended C9 at the action `"foo"`. -/
theorem unknown_action_response_witness :
    (({ action := some "foo", params := [] } : Request).action = some "foo" ∧
      "foo" ≠ "" ∧ "foo" ∉ recognizedActions) ∧
    processRequest { handle := fun _ _ => Except.error "" }
        { action := some "foo", params := [] } =
      { success := false, data := none,
        error := some ("Unknown action: " ++ "foo") } :=
  ⟨⟨rfl, by decide, by decide⟩,
    unknown_action_response { handle := fun _ _ => Except.error "" }
      { action := some "foo", params := [] } "foo" rfl (by decide) (by decide)⟩

/-! ### Claim C10 — zero and negative gpu_count -/

theorem checkRequirements_zero_count (req : GPURequirement)
    (snap : List GPUStatus) (h : req.gpu_count = 0) :
    checkRequirements req snap = some [] := by
  unfold checkRequirements
  simp only [h]
  rw [if_pos (by exact_mod_cast Nat.zero_le _)]
  simp [pySlice]

/-- C10 (amended).  Zero-gpu_count edge case: for a requirement with
`gpu_count = 0`, `check_requirements` returns the empty list (`some []`,
not `None`) on every snapshot, and the scheduler's admission test treats
the empty list as falsy exactly like no match, so a pending task with
`gpu_count = 0` survives any tick unchanged and remains pending.  (For
`gpu_count < 0` this fails: Python's `candidates[:gpu_count]` then drops
the last `-gpu_count` candidates and can return a non-empty list — see
the counterexample.) -/
theorem zero_gpu_count_no_admission (env : TickEnv) (ts : Store) (i : String)
    (t : Task) (snap : List GPUStatus) (hn : (ts.map Task.id).Nodup)
    (hget : getTask i ts = some t) (hpend : t.status = TaskStatus.pending)
    (hzero : t.requirements.gpu_count = 0) :
    checkRequirements t.requirements snap = some [] ∧
    getTask i (tick env ts) = some t := by
  refine ⟨checkRequirements_zero_count _ _ hzero, ?_⟩
  refine getTask_tick_preserved env ts i t hn hget (by simp [hpend]) ?_
  intro _
  unfold availableGpus
  cases hp : env.probe t with
  | none => exact Or.inl rfl
  | some s => exact Or.inr (checkRequirements_zero_count _ _ hzero)

/-- Concrete counterexample to C10 as stated: with `gpu_count = -1` and
two eligible devices, `candidates[:gpu_count]` is `candidates[:-1]`,
which is the non-empty list `[0]` — not the empty list the claim
asserts for every `gpu_count ≤ 0` — and a non-empty match is truthy,
so such a task can be started. -/
theorem negative_gpu_count_counterexample :
    checkRequirements { gpu_count := -1 }
        [{ index := 0 }, { index := 1 }] = some [0] ∧
    some ([0] : List Int) ≠ some ([] : List Int) := by
  constructor
  · unfold checkRequirements gpuEligible optListTruthy GPUStatus.free_memory_gb
    norm_num [pySlice]
  · simp

/-- Concrete instantiation of amended C10: a pending task demanding zero
GPUs is skipped by a tick whose probe offers one device. -/
theorem zero_gpu_count_no_admission_witness :
    ((([({ id := "z", status := .pending,
            requirements := { gpu_count := 0 } } : Task)]).map Task.id).Nodup ∧
      getTask "z"
          [({ id := "z", status := .pending,
              requirements := { gpu_count := 0 } } : Task)] =
        some { id := "z", status := .pending,
               requirements := { gpu_count := 0 } } ∧
      ({ id := "z", status := .pending,
         requirements := { gpu_count := 0 } } : Task).status =
        TaskStatus.pending ∧
      ({ id := "z", status := .pending,
         requirements := { gpu_count := 0 } } : Task).requirements.gpu_count = 0) ∧
    (checkRequirements
        ({ id := "z", status := .pending,
           requirements := { gpu_count := 0 } } : Task).requirements
        [{ index := 0 }] = some [] ∧
      getTask "z"
          (tick
            { check := fun _ => none, probe := fun _ => some [{ index := 0 }],
              spawnOk := fun _ => true, spawnPid := fun _ => 1,
              spawnErr := fun _ => "", logPath := fun _ => "", now := 5,
              maxConcurrent := 4 }
            [({ id := "z", status := .pending,
                requirements := { gpu_count := 0 } } : Task)]) =
        some { id := "z", status := .pending,
               requirements := { gpu_count := 0 } }) :=
  ⟨⟨by simp, rfl, rfl, rfl⟩,
    zero_gpu_count_no_admission
      { check := fun _ => none, probe := fun _ => some [{ index := 0 }],
        spawnOk := fun _ => true, spawnPid := fun _ => 1,
        spawnErr := fun _ => "", logPath := fun _ => "", now := 5,
        maxConcurrent := 4 }
      [{ id := "z", status := .pending, requirements := { gpu_count := 0 } }]
      "z" { id := "z", status := .pending, requirements := { gpu_count := 0 } }
      [{ index := 0 }] (by simp) rfl rfl rfl⟩

end GpuGrab
